import Mathlib

/-!
Verification of the Options_Data_Pipeline repository.

Shallow embedding of the core components (ATR engine, time grid, tick
buffer, gap filler, write pipeline, checkpoint manager, reconnect
operator, orchestrator finalization sequence) as executable Lean
definitions, together with theorems settling the frozen claims.

Python floats are modelled as rationals (ℚ); `round(x, 4)` is modelled
as rounding `x·10⁴` to the nearest integer (Mathlib's `round`, which
breaks ties upward where Python breaks ties to even — no claim depends
on tie behaviour).  Python `None` is `Option.none`; a Python runtime
error (e.g. `None` arithmetic, unexpected keyword argument) is the
`none` / `.error` case of an `Option` / `Except` result.
-/

/-- `config/settings.py`: `ATR_PERIOD = 14`. -/
def ATR_PERIOD : ℕ := 14

/-- `round(x, 4)` from `atr_engine.py` (`ATR_PRECISION = 4`): round to 4
decimal places, modelled on ℚ. -/
def round4 (x : ℚ) : ℚ := ((round (x * 10000) : ℤ) : ℚ) / 10000

/-- `atr_engine.py` `ATRState` dataclass: per-ticker ATR computation state. -/
structure ATRState where
  prev_close : Option ℚ
  prev_atr : Option ℚ
  tr_history : List ℚ
  candle_count : ℕ
deriving DecidableEq, Repr

/-- Fresh `ATRState()` (all defaults). -/
def ATRState.init : ATRState := ⟨none, none, [], 0⟩

/-- `ATREngine.compute_atr` (atr_engine.py lines 134–192) for one ticker,
with the per-ticker state passed explicitly (the Python method looks the
state up in `self._state`, creating a fresh one when absent).

Returns `none` when the Python code would raise: with `prev_atr = None`
and an accumulated `tr_history` longer than `ATR_PERIOD` after the
append, control falls through to the Wilder smoothing line
`(state.prev_atr * (ATR_PERIOD - 1) + tr) / ATR_PERIOD`, which is a
`TypeError` on `None`.  Otherwise `some (returned value, new state)`. -/
def compute_atr (s : ATRState) (tr : ℚ) : Option (Option ℚ × ATRState) :=
  let s1 : ATRState := { s with candle_count := s.candle_count + 1 }
  match s1.prev_atr with
  | none =>
    let hist := s1.tr_history ++ [tr]
    if hist.length < ATR_PERIOD then
      some (none, { s1 with tr_history := hist })
    else if hist.length = ATR_PERIOD then
      let atr := round4 (hist.sum / (ATR_PERIOD : ℚ))
      if atr < 0 then
        some (some 0, { s1 with prev_atr := some 0, tr_history := [] })
      else
        some (some atr, { s1 with prev_atr := some atr, tr_history := [] })
    else
      none
  | some pa =>
    let atr := round4 ((pa * ((ATR_PERIOD : ℚ) - 1) + tr) / (ATR_PERIOD : ℚ))
    let atr2 := if atr < 0 then 0 else atr
    some (some atr2, { s1 with prev_atr := some atr2 })

/-- Feed a list of TR values bar-by-bar through `compute_atr`, threading
the per-ticker state; `none` when any call raises. -/
def runATRFrom (s : ATRState) : List ℚ → Option (List (Option ℚ) × ATRState)
  | [] => some ([], s)
  | tr :: rest =>
    match compute_atr s tr with
    | none => none
    | some (out, s') =>
      match runATRFrom s' rest with
      | none => none
      | some (outs, sf) => some (out :: outs, sf)

/-- `ATREngine.load_state` (atr_engine.py lines 92–107) builds an
`ATRState` for a ticker from a checkpoint record without any
validation of the fields. -/
def load_state_record (prev_close prev_atr_v : Option ℚ)
    (tr_history_v : List ℚ) (candle_count_v : ℕ) : ATRState :=
  ⟨prev_close, prev_atr_v, tr_history_v, candle_count_v⟩

/-- The warmup invariant of a per-ticker ATR state: no smoothed ATR yet
implies fewer than `ATR_PERIOD` accumulated TR values. -/
def ATRInv (s : ATRState) : Prop :=
  s.prev_atr = none → s.tr_history.length < ATR_PERIOD

instance (s : ATRState) : Decidable (ATRInv s) := by
  unfold ATRInv; infer_instance

/-- A state violating the warmup invariant, constructible via
`load_state` with 14 accumulated TRs and no `prev_atr`. -/
def badWarmupState : ATRState :=
  load_state_record none none (List.replicate 14 1) 14

/-- **C8.** If a per-ticker ATR state satisfies the warmup invariant
(`prev_atr = None → |tr_history| < 14`) then `compute_atr` never reaches
the Wilder smoothing expression with `prev_atr = None` (it returns
normally, `some …`) and the resulting state satisfies the invariant
again; a state violating the invariant — constructible via `load_state`
with a `tr_history` of 14 or more entries and no `prev_atr` — makes the
next `compute_atr` call reach that expression with `None` and error
(result `none`). -/
theorem compute_atr_warmup_invariant :
    (∀ (s : ATRState) (tr : ℚ), ATRInv s →
      ∃ out s', compute_atr s tr = some (out, s') ∧ ATRInv s') ∧
    compute_atr badWarmupState 1 = none := by
  constructor
  · intro s tr hinv
    unfold compute_atr
    cases hpa : s.prev_atr with
    | none =>
      have hlen : s.tr_history.length < ATR_PERIOD := hinv hpa
      simp only [hpa]
      by_cases hlt : s.tr_history.length + 1 < ATR_PERIOD
      · refine ⟨none,
          { s with candle_count := s.candle_count + 1,
                   tr_history := s.tr_history ++ [tr] }, ?_, ?_⟩
        · simp [hlt, hpa]
        · intro _
          simpa using hlt
      · have heq : s.tr_history.length + 1 = ATR_PERIOD := by omega
        by_cases hneg : round4 ((s.tr_history.sum + tr) / (ATR_PERIOD : ℚ)) < 0
        · refine ⟨some 0,
            { s with candle_count := s.candle_count + 1,
                     prev_atr := some 0, tr_history := [] }, ?_, ?_⟩
          · simp [hlt, heq, hneg, hpa]
          · intro h; simp at h
        · refine ⟨some (round4 ((s.tr_history.sum + tr) / (ATR_PERIOD : ℚ))),
            { s with candle_count := s.candle_count + 1,
                     prev_atr := some (round4 ((s.tr_history.sum + tr) / (ATR_PERIOD : ℚ))),
                     tr_history := [] }, ?_, ?_⟩
          · simp [hlt, heq, hneg, hpa]
          · intro h; simp at h
    | some pa =>
      simp only [hpa]
      by_cases hneg :
          round4 ((pa * ((ATR_PERIOD : ℚ) - 1) + tr) / (ATR_PERIOD : ℚ)) < 0
      · refine ⟨some 0,
          { s with candle_count := s.candle_count + 1, prev_atr := some 0 }, ?_, ?_⟩
        · simp [hneg]
        · intro h; simp at h
      · refine ⟨some (round4 ((pa * ((ATR_PERIOD : ℚ) - 1) + tr) / (ATR_PERIOD : ℚ))),
          { s with candle_count := s.candle_count + 1,
                   prev_atr := some (round4 ((pa * ((ATR_PERIOD : ℚ) - 1) + tr) / (ATR_PERIOD : ℚ))) },
          ?_, ?_⟩
        · simp [hneg]
        · intro h; simp at h
  · decide

/-- Witness for C8: the invariant part applied at a concrete state. -/
theorem compute_atr_warmup_invariant_witness :
    ATRInv ATRState.init ∧
      ∃ out s', compute_atr ATRState.init 2 = some (out, s') ∧ ATRInv s' :=
  ⟨by decide, compute_atr_warmup_invariant.1 ATRState.init 2 (by decide)⟩

/-- Wilder smoothing step as the claim states it:
`((prev_atr × 13) + TR) / 14` rounded to 4 decimal places
(`ATR_PERIOD - 1 = 13`). -/
def wilderNext (prev tr : ℚ) : ℚ :=
  round4 ((prev * ((ATR_PERIOD : ℚ) - 1) + tr) / (ATR_PERIOD : ℚ))

/-- Sanity: the smoothing step is literally `(prev·13 + tr)/14` rounded. -/
theorem wilderNext_eq (prev tr : ℚ) :
    wilderNext prev tr = round4 ((prev * 13 + tr) / 14) := by
  norm_num [wilderNext, ATR_PERIOD]

/-- Steady-state reference outputs: each bar's ATR is obtained from the
ATR returned for the previous bar by the Wilder recurrence. -/
def steadySpec (prev : ℚ) : List ℚ → List (Option ℚ)
  | [] => []
  | tr :: rest => some (wilderNext prev tr) :: steadySpec (wilderNext prev tr) rest

/-- Warmup-phase reference outputs, starting from an accumulated history
`hist` (|hist| < 14): append each TR; while fewer than 14 TRs are
accumulated the output is null; at the 14th the output is the rounded
mean of the 14 accumulated TRs; afterwards the Wilder recurrence runs. -/
def warmSpec (hist : List ℚ) : List ℚ → List (Option ℚ)
  | [] => []
  | tr :: rest =>
    if (hist ++ [tr]).length < ATR_PERIOD then
      none :: warmSpec (hist ++ [tr]) rest
    else
      some (round4 ((hist ++ [tr]).sum / (ATR_PERIOD : ℚ))) ::
        steadySpec (round4 ((hist ++ [tr]).sum / (ATR_PERIOD : ℚ))) rest

/-- The claim's reference output list for an instrument fed bar-by-bar
from the empty state: null for each of the first 13 bars; at the 14th
bar the mean of the 14 accumulated TR values rounded to 4 decimals; from
the 15th on the Wilder recurrence on the previously returned ATR. -/
def atrSpecOutputs (trs : List ℚ) : List (Option ℚ) :=
  if trs.length < ATR_PERIOD then List.replicate trs.length none
  else
    List.replicate (ATR_PERIOD - 1) none ++
      some (round4 ((trs.take ATR_PERIOD).sum / (ATR_PERIOD : ℚ))) ::
        steadySpec (round4 ((trs.take ATR_PERIOD).sum / (ATR_PERIOD : ℚ)))
          (trs.drop ATR_PERIOD)

theorem round4_nonneg {x : ℚ} (hx : 0 ≤ x) : 0 ≤ round4 x := by
  have h1 : (0 : ℤ) ≤ round (x * 10000) := by
    rw [round_eq]
    calc (0 : ℤ) = ⌊(0 : ℚ) + 1 / 2⌋ := by norm_num
      _ ≤ ⌊x * 10000 + 1 / 2⌋ := by
          apply Int.floor_mono
          have : 0 ≤ x * 10000 := mul_nonneg hx (by norm_num)
          linarith
  exact div_nonneg (by exact_mod_cast h1) (by norm_num)

theorem wilderNext_nonneg {p t : ℚ} (hp : 0 ≤ p) (ht : 0 ≤ t) :
    0 ≤ wilderNext p t := by
  apply round4_nonneg
  apply div_nonneg
  · have : (0 : ℚ) ≤ p * ((ATR_PERIOD : ℚ) - 1) := by
      apply mul_nonneg hp
      norm_num [ATR_PERIOD]
    linarith
  · norm_num [ATR_PERIOD]

/-- One steady-state `compute_atr` call, given a nonnegative previous ATR. -/
theorem compute_atr_steady (s : ATRState) (pa t : ℚ) (hpa : s.prev_atr = some pa)
    (hpa0 : 0 ≤ pa) (ht : 0 ≤ t) :
    compute_atr s t = some (some (wilderNext pa t),
      { s with candle_count := s.candle_count + 1,
               prev_atr := some (wilderNext pa t) }) := by
  have hnlt : ¬ round4 ((pa * ((ATR_PERIOD : ℚ) - 1) + t) / (ATR_PERIOD : ℚ)) < 0 :=
    not_lt.mpr (wilderNext_nonneg hpa0 ht)
  unfold compute_atr
  simp only [hpa]
  rw [if_neg hnlt]
  rfl

/-- Steady-state run: with `prev_atr = some pa`, `pa ≥ 0` and nonnegative
TRs, the engine follows the Wilder recurrence and never touches
`tr_history`. -/
theorem runATRFrom_steady (trs : List ℚ) : ∀ (s : ATRState) (pa : ℚ),
    s.prev_atr = some pa → 0 ≤ pa → (∀ t ∈ trs, 0 ≤ t) →
    ∃ sf, runATRFrom s trs = some (steadySpec pa trs, sf) ∧
      sf.tr_history = s.tr_history := by
  induction trs with
  | nil => exact fun s pa _ _ _ => ⟨s, rfl, rfl⟩
  | cons t rest ih =>
    intro s pa hpa hpa0 hnn
    have ht : 0 ≤ t := hnn t (by simp)
    have hstep := compute_atr_steady s pa t hpa hpa0 ht
    obtain ⟨sf, hrun, hhist⟩ :=
      ih { s with candle_count := s.candle_count + 1,
                  prev_atr := some (wilderNext pa t) }
        (wilderNext pa t) rfl (wilderNext_nonneg hpa0 ht)
        (fun x hx => hnn x (by simp [hx]))
    refine ⟨sf, ?_, hhist⟩
    simp only [runATRFrom, hstep, hrun, steadySpec]

/-- One warmup `compute_atr` call that stays below 14 TRs: append the TR,
return null. -/
theorem compute_atr_warm_lt (s : ATRState) (t : ℚ) (hpa : s.prev_atr = none)
    (hlt : s.tr_history.length + 1 < ATR_PERIOD) :
    compute_atr s t = some (none,
      { s with candle_count := s.candle_count + 1,
               tr_history := s.tr_history ++ [t] }) := by
  unfold compute_atr
  simp only [hpa]
  simp [hlt, hpa]

/-- The 14th warmup `compute_atr` call with nonnegative mean: set
`prev_atr` to the rounded mean of the 14 TRs and clear `tr_history`. -/
theorem compute_atr_warm_fourteen (s : ATRState) (t : ℚ) (hpa : s.prev_atr = none)
    (heq : s.tr_history.length + 1 = ATR_PERIOD)
    (hnn : 0 ≤ round4 ((s.tr_history.sum + t) / (ATR_PERIOD : ℚ))) :
    compute_atr s t = some
      (some (round4 ((s.tr_history.sum + t) / (ATR_PERIOD : ℚ))),
      { s with candle_count := s.candle_count + 1,
               prev_atr := some (round4 ((s.tr_history.sum + t) / (ATR_PERIOD : ℚ))),
               tr_history := [] }) := by
  have hlt : ¬ s.tr_history.length + 1 < ATR_PERIOD := by omega
  have hneg : ¬ round4 ((s.tr_history.sum + t) / (ATR_PERIOD : ℚ)) < 0 := not_lt.mpr hnn
  unfold compute_atr
  simp only [hpa]
  simp [hlt, heq, hneg, hpa]

/-- Warmup-phase run of the engine, tracking the accumulated history. -/
theorem runATRFrom_warm (trs : List ℚ) : ∀ (s : ATRState),
    s.prev_atr = none → s.tr_history.length < ATR_PERIOD →
    (∀ t ∈ s.tr_history, 0 ≤ t) → (∀ t ∈ trs, 0 ≤ t) →
    ∃ sf, runATRFrom s trs = some (warmSpec s.tr_history trs, sf) ∧
      (ATR_PERIOD ≤ s.tr_history.length + trs.length → sf.tr_history = []) := by
  induction trs with
  | nil =>
    intro s _ hlen _ _
    refine ⟨s, rfl, fun h => ?_⟩
    simp at h
    omega
  | cons t rest ih =>
    intro s hpa hlen hh hnn
    have ht : 0 ≤ t := hnn t (by simp)
    by_cases hlt : s.tr_history.length + 1 < ATR_PERIOD
    · have hstep := compute_atr_warm_lt s t hpa hlt
      obtain ⟨sf, hrun, hfin⟩ := ih
        { s with candle_count := s.candle_count + 1,
                 tr_history := s.tr_history ++ [t] }
        (by simp [hpa]) (by simpa using hlt)
        (by
          intro x hx
          rcases List.mem_append.mp hx with h | h
          · exact hh x h
          · simp at h; subst h; exact ht)
        (fun x hx => hnn x (by simp [hx]))
      have hws : warmSpec s.tr_history (t :: rest) =
          none :: warmSpec (s.tr_history ++ [t]) rest := by
        have h : (s.tr_history ++ [t]).length < ATR_PERIOD := by simpa using hlt
        simp only [warmSpec, if_pos h]
      refine ⟨sf, ?_, fun hge => hfin (by simp at hge ⊢; omega)⟩
      rw [hws]
      simp only [runATRFrom, hstep]
      rw [hrun]
    · have heq : s.tr_history.length + 1 = ATR_PERIOD := by omega
      have hsum0 : 0 ≤ s.tr_history.sum + t := by
        have := List.sum_nonneg hh
        linarith
      have ha0 : 0 ≤ round4 ((s.tr_history.sum + t) / (ATR_PERIOD : ℚ)) :=
        round4_nonneg (div_nonneg hsum0 (by norm_num [ATR_PERIOD]))
      have hstep := compute_atr_warm_fourteen s t hpa heq ha0
      obtain ⟨sf, hrun, hfin⟩ := runATRFrom_steady rest
        { s with candle_count := s.candle_count + 1,
                 prev_atr := some (round4 ((s.tr_history.sum + t) / (ATR_PERIOD : ℚ))),
                 tr_history := [] }
        (round4 ((s.tr_history.sum + t) / (ATR_PERIOD : ℚ)))
        rfl ha0 (fun x hx => hnn x (by simp [hx]))
      have hws : warmSpec s.tr_history (t :: rest) =
          some (round4 ((s.tr_history.sum + t) / (ATR_PERIOD : ℚ))) ::
            steadySpec (round4 ((s.tr_history.sum + t) / (ATR_PERIOD : ℚ))) rest := by
        have h : ¬ (s.tr_history ++ [t]).length < ATR_PERIOD := by simp; omega
        simp only [warmSpec, if_neg h]
        simp
      refine ⟨sf, ?_, fun _ => by simpa using hfin⟩
      rw [hws]
      simp only [runATRFrom, hstep]
      rw [hrun]

/-- Closed form of `warmSpec`: starting from an accumulated history of
fewer than 14 TRs, the outputs are nulls until 14 TRs are accumulated,
then the rounded mean of those 14, then the Wilder recurrence. -/
theorem warmSpec_closed (trs : List ℚ) : ∀ (hist : List ℚ),
    hist.length < ATR_PERIOD →
    warmSpec hist trs =
      if hist.length + trs.length < ATR_PERIOD then
        List.replicate trs.length (none : Option ℚ)
      else
        List.replicate (ATR_PERIOD - 1 - hist.length) none ++
          some (round4 ((hist ++ trs.take (ATR_PERIOD - hist.length)).sum / (ATR_PERIOD : ℚ))) ::
            steadySpec
              (round4 ((hist ++ trs.take (ATR_PERIOD - hist.length)).sum / (ATR_PERIOD : ℚ)))
              (trs.drop (ATR_PERIOD - hist.length)) := by
  induction trs with
  | nil =>
    intro hist hlen
    rw [if_pos (by simpa using hlen)]
    rfl
  | cons t rest ih =>
    intro hist hlen
    by_cases hlt : hist.length + 1 < ATR_PERIOD
    · have h : (hist ++ [t]).length < ATR_PERIOD := by simpa using hlt
      have hstep : warmSpec hist (t :: rest) = none :: warmSpec (hist ++ [t]) rest := by
        simp only [warmSpec, if_pos h]
      rw [hstep, ih (hist ++ [t]) h]
      by_cases hc : hist.length + 1 + rest.length < ATR_PERIOD
      · rw [if_pos (by simpa using hc), if_pos (by simp; omega)]
        simp [List.replicate_succ]
      · rw [if_neg (by simp; omega), if_neg (by simp; omega)]
        have h1 : ATR_PERIOD - hist.length = (ATR_PERIOD - (hist.length + 1)) + 1 := by
          omega
        have h2 : ATR_PERIOD - 1 - hist.length =
            (ATR_PERIOD - 1 - (hist.length + 1)) + 1 := by
          omega
        rw [h1, h2, List.take_succ_cons, List.drop_succ_cons, List.replicate_succ]
        simp
    · have heq : hist.length + 1 = ATR_PERIOD := by omega
      have h : ¬ (hist ++ [t]).length < ATR_PERIOD := by simp; omega
      have hstep : warmSpec hist (t :: rest) =
          some (round4 ((hist ++ [t]).sum / (ATR_PERIOD : ℚ))) ::
            steadySpec (round4 ((hist ++ [t]).sum / (ATR_PERIOD : ℚ))) rest := by
        simp only [warmSpec, if_neg h]
      rw [hstep, if_neg (by simp; omega)]
      have h0 : ATR_PERIOD - 1 - hist.length = 0 := by omega
      have h1 : ATR_PERIOD - hist.length = 1 := by omega
      rw [h0, h1]
      simp

/-- **C1.** For every instrument fed bar-by-bar through the ATR engine
starting from the empty state (with nonnegative TR values, as every TR
produced by `compute_tr` from a well-formed candle is), `compute_atr`
returns null for each of the first 13 bars; at the 14th bar it returns
the mean of the 14 accumulated TR values rounded to 4 decimal places and
clears `tr_history`; and at every bar from the 15th on it returns
`((prev_atr × 13) + TR) / 14` rounded to 4 decimal places, where
`prev_atr` is the ATR returned for the previous bar — the run from the
empty state produces exactly the reference output list
`atrSpecOutputs`, and the state after the 14th bar has an empty
`tr_history`. -/
theorem atr_warmup_mean_and_wilder_recurrence (trs : List ℚ)
    (hnn : ∀ t ∈ trs, 0 ≤ t) :
    (∃ sf, runATRFrom ATRState.init trs = some (atrSpecOutputs trs, sf)) ∧
    (ATR_PERIOD ≤ trs.length →
      ∃ s14, runATRFrom ATRState.init (trs.take ATR_PERIOD) =
        some (atrSpecOutputs (trs.take ATR_PERIOD), s14) ∧ s14.tr_history = []) := by
  have hbridge : ∀ l : List ℚ, warmSpec [] l = atrSpecOutputs l := by
    intro l
    rw [warmSpec_closed l [] (by norm_num [ATR_PERIOD])]
    unfold atrSpecOutputs
    simp
  constructor
  · obtain ⟨sf, hrun, _⟩ := runATRFrom_warm trs ATRState.init rfl
      (by norm_num [ATRState.init, ATR_PERIOD]) (by simp [ATRState.init]) hnn
    refine ⟨sf, ?_⟩
    rw [hrun]
    rw [show ATRState.init.tr_history = [] from rfl, hbridge]
  · intro h14
    obtain ⟨sf, hrun, hfin⟩ := runATRFrom_warm (trs.take ATR_PERIOD) ATRState.init rfl
      (by norm_num [ATRState.init, ATR_PERIOD]) (by simp [ATRState.init])
      (fun x hx => hnn x (List.take_subset ATR_PERIOD trs hx))
    refine ⟨sf, ?_, hfin ?_⟩
    · rw [hrun]
      rw [show ATRState.init.tr_history = [] from rfl, hbridge]
    · rw [show ATRState.init.tr_history = [] from rfl]
      simp [List.length_take]
      omega

/-- Concrete TR trace for the C1 witness: 13 warmup bars, the 14th
completing the mean, one steady-state bar. -/
def atrWitnessTrs : List ℚ := [1, 1, 1, 1, 1, 1, 1, 1, 1, 1, 1, 1, 1, 3, 2]

/-- Witness for C1 at a concrete 15-bar trace. -/
theorem atr_warmup_mean_and_wilder_recurrence_witness :
    (∀ t ∈ atrWitnessTrs, (0 : ℚ) ≤ t) ∧
    ((∃ sf, runATRFrom ATRState.init atrWitnessTrs =
        some (atrSpecOutputs atrWitnessTrs, sf)) ∧
      (ATR_PERIOD ≤ atrWitnessTrs.length →
        ∃ s14, runATRFrom ATRState.init (atrWitnessTrs.take ATR_PERIOD) =
          some (atrSpecOutputs (atrWitnessTrs.take ATR_PERIOD), s14) ∧
            s14.tr_history = [])) :=
  ⟨by decide, atr_warmup_mean_and_wilder_recurrence atrWitnessTrs (by decide)⟩

/-- `config/settings.py`: `CANDLE_INTERVAL_MINUTES = 5`. -/
def CANDLE_INTERVAL_MINUTES : ℕ := 5

/-- `config/settings.py`: `MARKET_OPEN = time(9, 15)`, as minutes since
midnight on the trading date. -/
def MARKET_OPEN : ℕ := 9 * 60 + 15

/-- `config/settings.py`: `MARKET_CLOSE = time(15, 30)`, as minutes since
midnight on the trading date. -/
def MARKET_CLOSE : ℕ := 15 * 60 + 30

/-- `_generate_boundary_list` (time_utils.py lines 26–51):
`while current < end: boundaries.append(current); current += interval`.
Times are minutes since midnight; timestamps passed to
`assign_tick_to_window` may be fractional (sub-minute) rationals. -/
def generate_boundary_list (current endT : ℕ) : List ℕ :=
  if current < endT then
    current :: generate_boundary_list (current + CANDLE_INTERVAL_MINUTES) endT
  else []
termination_by endT - current
decreasing_by simp [CANDLE_INTERVAL_MINUTES]; omega

/-- The owning-window search loop of `assign_tick_to_window`
(time_utils.py lines 203–208):
`for boundary in boundaries: if boundary <= ts: owning = boundary else: break`. -/
def findOwningAux (boundaries : List ℕ) (ts : ℚ) (acc : Option ℕ) : Option ℕ :=
  match boundaries with
  | [] => acc
  | b :: rest => if (b : ℚ) ≤ ts then findOwningAux rest ts (some b) else acc

/-- The four `ValueError`s raised by `assign_tick_to_window`. -/
inductive AssignError where
  | noBoundaries
  | beforeOpen
  | noOwningWindow
  | afterSessionClose
deriving DecidableEq, Repr

/-- `assign_tick_to_window` (time_utils.py lines 167–224), with the
timestamp reduced to (possibly fractional) minutes since midnight on its
trading date.  The boundary list is recomputed at each reference, which
is semantically identical to the Python local variable. -/
def assign_tick_to_window (ts : ℚ) : Except AssignError ℕ :=
  if (generate_boundary_list MARKET_OPEN MARKET_CLOSE) = [] then
    .error .noBoundaries
  else if ts < (((generate_boundary_list MARKET_OPEN MARKET_CLOSE).headD 0 : ℕ) : ℚ) then
    .error .beforeOpen
  else
    match findOwningAux (generate_boundary_list MARKET_OPEN MARKET_CLOSE) ts none with
    | none => .error .noOwningWindow
    | some w =>
      if ((((generate_boundary_list MARKET_OPEN MARKET_CLOSE).getLastD 0
            + CANDLE_INTERVAL_MINUTES : ℕ)) : ℚ) ≤ ts then
        .error .afterSessionClose
      else .ok w

theorem gbl_mem : ∀ (c e b : ℕ), b ∈ generate_boundary_list c e → c ≤ b ∧ b < e := by
  intro c e
  induction c, e using generate_boundary_list.induct with
  | case1 c e hlt ih =>
    intro b hb
    rw [generate_boundary_list, if_pos hlt] at hb
    rcases List.mem_cons.mp hb with rfl | hb
    · exact ⟨le_refl _, hlt⟩
    · have := ih b hb
      exact ⟨by omega, this.2⟩
  | case2 c e hnlt =>
    intro b hb
    rw [generate_boundary_list, if_neg hnlt] at hb
    simp at hb

theorem gbl_pairwise : ∀ (c e : ℕ), (generate_boundary_list c e).Pairwise (· < ·) := by
  intro c e
  induction c, e using generate_boundary_list.induct with
  | case1 c e hlt ih =>
    rw [generate_boundary_list, if_pos hlt]
    refine List.Pairwise.cons ?_ ih
    intro b hb
    have h1 := (gbl_mem _ _ _ hb).1
    have h5 : CANDLE_INTERVAL_MINUTES = 5 := rfl
    omega
  | case2 c e hnlt =>
    rw [generate_boundary_list, if_neg hnlt]
    exact List.Pairwise.nil

theorem gbl_lastD : ∀ (c e : ℕ), c < e → CANDLE_INTERVAL_MINUTES ∣ e - c →
    ∀ d, (generate_boundary_list c e).getLastD d + CANDLE_INTERVAL_MINUTES = e := by
  intro c e
  induction c, e using generate_boundary_list.induct with
  | case1 c e hlt ih =>
    intro _ hdvd d
    rw [generate_boundary_list, if_pos hlt, List.getLastD_cons]
    by_cases h2 : c + CANDLE_INTERVAL_MINUTES < e
    · have h5 : CANDLE_INTERVAL_MINUTES = 5 := rfl
      refine ih h2 ?_ c
      rw [h5] at hdvd ⊢
      omega
    · rw [generate_boundary_list, if_neg h2]
      have h5 : CANDLE_INTERVAL_MINUTES = 5 := rfl
      simp only [List.getLastD_nil]
      rw [h5] at hdvd h2 ⊢
      omega
  | case2 c e hnlt =>
    intro hlt
    exact absurd hlt hnlt

theorem findOwningAux_of_all_gt : ∀ (l : List ℕ) (ts : ℚ) (acc : Option ℕ),
    (∀ x ∈ l, ts < (x : ℚ)) → findOwningAux l ts acc = acc := by
  intro l
  induction l with
  | nil => intro ts acc _; rfl
  | cons a rest ih =>
    intro ts acc h
    simp only [findOwningAux]
    rw [if_neg (not_le.mpr (h a (by simp)))]

/-- On a strictly sorted list containing some element `≤ ts`, the search
loop returns the largest element `≤ ts`. -/
theorem findOwningAux_max : ∀ (l : List ℕ), l.Pairwise (· < ·) →
    ∀ (ts : ℚ) (b : ℕ), b ∈ l → (b : ℚ) ≤ ts →
    ∀ acc, ∃ r, findOwningAux l ts acc = some r ∧ r ∈ l ∧ (r : ℚ) ≤ ts ∧
      ∀ y ∈ l, (y : ℚ) ≤ ts → y ≤ r := by
  intro l
  induction l with
  | nil => intro _ ts b hb; simp at hb
  | cons a rest ih =>
    intro hp ts b hb hbts acc
    have hpa : ∀ y ∈ rest, a < y := (List.pairwise_cons.mp hp).1
    have hprest := (List.pairwise_cons.mp hp).2
    have hats : (a : ℚ) ≤ ts := by
      rcases List.mem_cons.mp hb with rfl | hbr
      · exact hbts
      · have h1 : a < b := hpa b hbr
        have h2 : (a : ℚ) < (b : ℚ) := by exact_mod_cast h1
        linarith
    simp only [findOwningAux]
    rw [if_pos hats]
    by_cases hex : ∃ x ∈ rest, (x : ℚ) ≤ ts
    · obtain ⟨x, hx, hxts⟩ := hex
      obtain ⟨r, hr, hrmem, hrts, hrmax⟩ := ih hprest ts x hx hxts (some a)
      refine ⟨r, hr, List.mem_cons_of_mem a hrmem, hrts, ?_⟩
      intro y hy hyts
      rcases List.mem_cons.mp hy with rfl | hyr
      · have : y < r := hpa r hrmem
        omega
      · exact hrmax y hyr hyts
    · push_neg at hex
      rw [findOwningAux_of_all_gt rest ts (some a) hex]
      refine ⟨a, rfl, by simp, hats, ?_⟩
      intro y hy hyts
      rcases List.mem_cons.mp hy with rfl | hyr
      · exact le_refl y
      · exact absurd hyts (not_le.mpr (hex y hyr))

theorem gbl_session_ne_nil :
    generate_boundary_list MARKET_OPEN MARKET_CLOSE ≠ [] := by
  rw [generate_boundary_list,
    if_pos (by norm_num [MARKET_OPEN, MARKET_CLOSE] : MARKET_OPEN < MARKET_CLOSE)]
  simp

theorem gbl_session_headD :
    (generate_boundary_list MARKET_OPEN MARKET_CLOSE).headD 0 = MARKET_OPEN := by
  rw [generate_boundary_list,
    if_pos (by norm_num [MARKET_OPEN, MARKET_CLOSE] : MARKET_OPEN < MARKET_CLOSE)]
  rfl

theorem gbl_session_open_mem :
    MARKET_OPEN ∈ generate_boundary_list MARKET_OPEN MARKET_CLOSE := by
  rw [generate_boundary_list,
    if_pos (by norm_num [MARKET_OPEN, MARKET_CLOSE] : MARKET_OPEN < MARKET_CLOSE)]
  exact List.mem_cons_self _ _

theorem gbl_session_lastD :
    (generate_boundary_list MARKET_OPEN MARKET_CLOSE).getLastD 0
      + CANDLE_INTERVAL_MINUTES = MARKET_CLOSE :=
  gbl_lastD MARKET_OPEN MARKET_CLOSE
    (by norm_num [MARKET_OPEN, MARKET_CLOSE])
    (by norm_num [MARKET_OPEN, MARKET_CLOSE, CANDLE_INTERVAL_MINUTES]) 0

/-- **C3.** For every exchange timestamp `ts` on a trading date (minutes
since midnight): if session open ≤ `ts` < session close,
`assign_tick_to_window ts` returns the largest boundary ≤ `ts` from the
pre-computed boundary list (whose entries are each < close); and it
fails with an error exactly when `ts` < open or `ts` ≥ close. -/
theorem assign_tick_to_window_spec (ts : ℚ) :
    (((MARKET_OPEN : ℚ) ≤ ts ∧ ts < (MARKET_CLOSE : ℚ)) →
      ∃ w, assign_tick_to_window ts = Except.ok w ∧
        w ∈ generate_boundary_list MARKET_OPEN MARKET_CLOSE ∧
        (w : ℚ) ≤ ts ∧
        ∀ b ∈ generate_boundary_list MARKET_OPEN MARKET_CLOSE,
          (b : ℚ) ≤ ts → b ≤ w) ∧
    ((∃ er, assign_tick_to_window ts = Except.error er) ↔
      (ts < (MARKET_OPEN : ℚ) ∨ (MARKET_CLOSE : ℚ) ≤ ts)) ∧
    (∀ b ∈ generate_boundary_list MARKET_OPEN MARKET_CLOSE, b < MARKET_CLOSE) := by
  have hok : (MARKET_OPEN : ℚ) ≤ ts → ts < (MARKET_CLOSE : ℚ) →
      ∃ w, assign_tick_to_window ts = Except.ok w ∧
        w ∈ generate_boundary_list MARKET_OPEN MARKET_CLOSE ∧
        (w : ℚ) ≤ ts ∧
        ∀ b ∈ generate_boundary_list MARKET_OPEN MARKET_CLOSE,
          (b : ℚ) ≤ ts → b ≤ w := by
    intro h1 h2
    obtain ⟨r, hr, hrmem, hrts, hrmax⟩ :=
      findOwningAux_max (generate_boundary_list MARKET_OPEN MARKET_CLOSE)
        (gbl_pairwise _ _) ts MARKET_OPEN gbl_session_open_mem h1 none
    refine ⟨r, ?_, hrmem, hrts, hrmax⟩
    unfold assign_tick_to_window
    rw [if_neg gbl_session_ne_nil,
      if_neg (by rw [gbl_session_headD]; exact not_lt.mpr h1), hr]
    show (if ((((generate_boundary_list MARKET_OPEN MARKET_CLOSE).getLastD 0
          + CANDLE_INTERVAL_MINUTES : ℕ)) : ℚ) ≤ ts then
        Except.error AssignError.afterSessionClose
      else Except.ok r) = Except.ok r
    rw [if_neg (by rw [gbl_session_lastD]; exact not_le.mpr h2)]
  refine ⟨fun h => hok h.1 h.2, ⟨?_, ?_⟩, fun b hb => (gbl_mem _ _ _ hb).2⟩
  · intro ⟨er, her⟩
    by_contra hcon
    push_neg at hcon
    obtain ⟨w, hw, _⟩ := hok hcon.1 hcon.2
    rw [hw] at her
    exact Except.noConfusion her
  · intro h
    rcases h with h | h
    · refine ⟨AssignError.beforeOpen, ?_⟩
      unfold assign_tick_to_window
      rw [if_neg gbl_session_ne_nil, if_pos (by rw [gbl_session_headD]; exact h)]
    · have h1 : (MARKET_OPEN : ℚ) ≤ ts := by
        have : (MARKET_OPEN : ℚ) ≤ (MARKET_CLOSE : ℚ) := by
          norm_num [MARKET_OPEN, MARKET_CLOSE]
        linarith
      obtain ⟨r, hr, _, _, _⟩ :=
        findOwningAux_max (generate_boundary_list MARKET_OPEN MARKET_CLOSE)
          (gbl_pairwise _ _) ts MARKET_OPEN gbl_session_open_mem h1 none
      refine ⟨AssignError.afterSessionClose, ?_⟩
      unfold assign_tick_to_window
      rw [if_neg gbl_session_ne_nil,
        if_neg (by rw [gbl_session_headD]; exact not_lt.mpr h1), hr]
      show (if ((((generate_boundary_list MARKET_OPEN MARKET_CLOSE).getLastD 0
            + CANDLE_INTERVAL_MINUTES : ℕ)) : ℚ) ≤ ts then
          Except.error AssignError.afterSessionClose
        else Except.ok r) = Except.error AssignError.afterSessionClose
      rw [if_pos (by rw [gbl_session_lastD]; exact h)]

/-- Witness for C3 at the concrete in-session timestamp 10:00:00
(600 minutes). -/
theorem assign_tick_to_window_spec_witness :
    ((MARKET_OPEN : ℚ) ≤ 600 ∧ (600 : ℚ) < (MARKET_CLOSE : ℚ)) ∧
    (∃ w, assign_tick_to_window 600 = Except.ok w ∧
      w ∈ generate_boundary_list MARKET_OPEN MARKET_CLOSE ∧
      (w : ℚ) ≤ 600 ∧
      ∀ b ∈ generate_boundary_list MARKET_OPEN MARKET_CLOSE,
        (b : ℚ) ≤ 600 → b ≤ w) :=
  ⟨by norm_num [MARKET_OPEN, MARKET_CLOSE],
    (assign_tick_to_window_spec 600).1 (by norm_num [MARKET_OPEN, MARKET_CLOSE])⟩

/-- The `OHLCCandle` dataclass of `tick_buffer.py` (lines 24–42):
`window_start, open, high, low, close, tick_count`.  The Python field
`open` is renamed `open_p` (Lean keyword).  Note: the dataclass has NO
`gap_filled` field. -/
structure OHLCCandle where
  window_start : ℕ
  open_p : ℚ
  high : ℚ
  low : ℚ
  close : ℚ
  tick_count : ℕ
deriving DecidableEq, Repr

/-- Python-dict-as-association-list lookup (`d.get(k)`). -/
def lookupAssoc {α : Type} (m : List (String × α)) (k : String) : Option α :=
  (m.find? (fun p => p.1 == k)).map Prod.snd

/-- Python-dict-as-association-list assignment (`d[k] = v`): replace in
place if present, else append (Python dicts keep insertion order). -/
def setAssoc {α : Type} (m : List (String × α)) (k : String) (v : α) :
    List (String × α) :=
  if m.any (fun p => p.1 == k) then
    m.map (fun p => if p.1 == k then (k, v) else p)
  else m ++ [(k, v)]

/-- `TickBuffer` state (tick_buffer.py lines 57–63): accumulator map,
active window, drop counters, frozen flag.  The mutex serializes all
operations; each is modelled as an atomic state transition. -/
structure TickBuffer where
  buffer : List (String × OHLCCandle)
  active_window : Option ℕ
  late_tick_count : ℕ
  future_tick_count : ℕ
  frozen : Bool
deriving DecidableEq, Repr

/-- `TickBuffer.set_active_window` (lines 75–84). -/
def TickBuffer.set_active_window (s : TickBuffer) (w : ℕ) : TickBuffer :=
  { s with active_window := some w, frozen := false,
           late_tick_count := 0, future_tick_count := 0 }

/-- `TickBuffer.freeze` (lines 86–92). -/
def TickBuffer.freeze (s : TickBuffer) : TickBuffer :=
  { s with frozen := true }

/-- The normal-update tail of `TickBuffer.update` (lines 126–144):
first tick creates the candle, later ticks fold the price in. -/
def TickBuffer.applyTick (s : TickBuffer) (ticker : String) (price : ℚ)
    (window_start : ℕ) : Bool × TickBuffer :=
  match lookupAssoc s.buffer ticker with
  | none =>
    (true, { s with buffer :=
      s.buffer ++ [(ticker, ⟨window_start, price, price, price, price, 1⟩)] })
  | some c =>
    let c2 : OHLCCandle :=
      { c with high := max c.high price, low := min c.low price,
               close := price, tick_count := c.tick_count + 1 }
    (true, { s with buffer := setAssoc s.buffer ticker c2 })

/-- `TickBuffer.update` (tick_buffer.py lines 94–144). -/
def TickBuffer.update (s : TickBuffer) (ticker : String) (price : ℚ)
    (window_start : ℕ) : Bool × TickBuffer :=
  if s.frozen then
    (false, { s with late_tick_count := s.late_tick_count + 1 })
  else
    match s.active_window with
    | some aw =>
      if window_start < aw then
        (false, { s with late_tick_count := s.late_tick_count + 1 })
      else if aw < window_start then
        (false, { s with future_tick_count := s.future_tick_count + 1 })
      else s.applyTick ticker price window_start
    | none => s.applyTick ticker price window_start

/-- `TickBuffer.snapshot_and_reset` (tick_buffer.py lines 146–183):
returns the buffer contents, clears the accumulator and drop counters;
the frozen flag and active window are NOT reset. -/
def TickBuffer.snapshot_and_reset (s : TickBuffer) :
    List (String × OHLCCandle) × TickBuffer :=
  (s.buffer,
    { s with buffer := [], late_tick_count := 0, future_tick_count := 0 })

/-- The tick-buffer operations other than construction. -/
inductive BufOp where
  | tick (ticker : String) (price : ℚ) (window_start : ℕ)
  | freezeOp
  | snapshotOp
  | setActiveOp (w : ℕ)
deriving DecidableEq, Repr

def BufOp.isSetActive : BufOp → Bool
  | .setActiveOp _ => true
  | _ => false

/-- Apply one operation; `some b` is the Bool returned by `update`. -/
def applyOp (s : TickBuffer) : BufOp → TickBuffer × Option Bool
  | .tick t p w => ((s.update t p w).2, some (s.update t p w).1)
  | .freezeOp => (s.freeze, none)
  | .snapshotOp => (s.snapshot_and_reset.2, none)
  | .setActiveOp w => (s.set_active_window w, none)

/-- Apply a sequence of operations, collecting the `update` results. -/
def applyOps (s : TickBuffer) : List BufOp → TickBuffer × List Bool
  | [] => (s, [])
  | op :: rest =>
    ((applyOps (applyOp s op).1 rest).1,
      (match (applyOp s op).2 with | some b => [b] | none => []) ++
        (applyOps (applyOp s op).1 rest).2)

/-- **C6.** After `freeze()` and before the next `set_active_window` —
including after an intervening `snapshot_and_reset`, which leaves the
frozen flag and active window untouched — every
`update(ticker, price, window_start)` call returns false, leaves the
accumulator map unchanged, and only increments the late-tick counter. -/
theorem tick_buffer_freeze_barrier :
    (∀ (s : TickBuffer) (ticker : String) (price : ℚ) (w : ℕ),
      s.frozen = true →
      s.update ticker price w =
        (false, { s with late_tick_count := s.late_tick_count + 1 })) ∧
    (∀ s : TickBuffer,
      s.snapshot_and_reset.2.frozen = s.frozen ∧
      s.snapshot_and_reset.2.active_window = s.active_window) ∧
    (∀ s : TickBuffer, s.freeze.frozen = true) ∧
    (∀ (s : TickBuffer) (ops : List BufOp), s.frozen = true →
      (∀ op ∈ ops, op.isSetActive = false) →
      (applyOps s ops).1.frozen = true ∧
        ∀ b ∈ (applyOps s ops).2, b = false) := by
  have hupd : ∀ (s : TickBuffer) (ticker : String) (price : ℚ) (w : ℕ),
      s.frozen = true →
      s.update ticker price w =
        (false, { s with late_tick_count := s.late_tick_count + 1 }) := by
    intro s ticker price w h
    simp [TickBuffer.update, h]
  refine ⟨hupd, fun s => ⟨rfl, rfl⟩, fun s => rfl, ?_⟩
  intro s ops
  induction ops generalizing s with
  | nil => intro h _; exact ⟨h, by simp [applyOps]⟩
  | cons op rest ih =>
    intro h hops
    have hrest : ∀ o ∈ rest, o.isSetActive = false :=
      fun o ho => hops o (List.mem_cons_of_mem op ho)
    cases op with
    | tick t p w =>
      have hstep := hupd s t p w h
      have := ih { s with late_tick_count := s.late_tick_count + 1 } (by simp [h]) hrest
      refine ⟨?_, ?_⟩
      · simpa [applyOps, applyOp, hstep] using this.1
      · intro b hb
        simp [applyOps, applyOp, hstep] at hb
        rcases hb with rfl | hb
        · rfl
        · exact this.2 b hb
    | freezeOp =>
      have := ih s.freeze (by simp [TickBuffer.freeze]) hrest
      refine ⟨by simpa [applyOps, applyOp] using this.1, ?_⟩
      intro b hb
      simp [applyOps, applyOp] at hb
      exact this.2 b hb
    | snapshotOp =>
      have := ih s.snapshot_and_reset.2 (by simp [TickBuffer.snapshot_and_reset, h]) hrest
      refine ⟨by simpa [applyOps, applyOp] using this.1, ?_⟩
      intro b hb
      simp [applyOps, applyOp] at hb
      exact this.2 b hb
    | setActiveOp w =>
      have := hops (BufOp.setActiveOp w) (by simp)
      simp [BufOp.isSetActive] at this

/-- Concrete frozen buffer for the C6 witness. -/
def frozenBufferC6 : TickBuffer :=
  ((TickBuffer.mk [] none 0 0 false).set_active_window 555).freeze

/-- Concrete op sequence for the C6 witness: update, snapshot, update. -/
def opsC6 : List BufOp :=
  [BufOp.tick "RELIANCE" 2400 555, BufOp.snapshotOp, BufOp.tick "RELIANCE" 2401 555]

/-- Witness for C6 at a concrete frozen buffer and op sequence. -/
theorem tick_buffer_freeze_barrier_witness :
    (frozenBufferC6.frozen = true ∧ (∀ op ∈ opsC6, op.isSetActive = false)) ∧
    ((applyOps frozenBufferC6 opsC6).1.frozen = true ∧
      ∀ b ∈ (applyOps frozenBufferC6 opsC6).2, b = false) :=
  ⟨⟨rfl, by decide⟩,
    tick_buffer_freeze_barrier.2.2.2 frozenBufferC6 opsC6 rfl (by decide)⟩

/-- The field names of the `OHLCCandle` dataclass in `tick_buffer.py`
(lines 24–42).  There is no `gap_filled` among them. -/
def OHLCCandleFields : List String :=
  ["window_start", "open", "high", "low", "close", "tick_count"]

/-- Python runtime errors relevant to the gap filler: a dataclass
`__init__` called with a keyword that is not a field raises
`TypeError: __init__() got an unexpected keyword argument`. -/
inductive PyError where
  | typeErrorUnexpectedKwarg (kwarg : String)
deriving DecidableEq, Repr

/-- Keyword check a Python dataclass constructor performs: error on the
first keyword that is not a declared field. -/
def checkOHLCKwargs (passed : List String) : Except PyError Unit :=
  match passed.find? (fun k => !(OHLCCandleFields.contains k)) with
  | some k => Except.error (PyError.typeErrorUnexpectedKwarg k)
  | none => Except.ok ()

/-- The keywords `GapFiller.fill` passes when synthesizing a flat candle
(gap_fill.py lines 61–69): `window_start, open, high, low, close,
tick_count, gap_filled` — the last one is not a field of `OHLCCandle`. -/
def gapFillFlatCandleKwargs : List String :=
  ["window_start", "open", "high", "low", "close", "tick_count", "gap_filled"]

/-- The per-symbol loop of `GapFiller.fill` (gap_fill.py lines 54–75):
for each expected symbol missing from `candles`, synthesize a flat
candle from `last_close` (raising if the constructor call is invalid) or
record the symbol as unfillable. -/
def gapFillLoop (last_close : List (String × ℚ))
    (window_start : ℕ) :
    List String → List (String × OHLCCandle) → List String →
    Except PyError (List (String × OHLCCandle) × List String)
  | [], candles, unfillable => Except.ok (candles, unfillable)
  | sym :: rest, candles, unfillable =>
    match lookupAssoc candles sym with
    | some _ => gapFillLoop last_close window_start rest candles unfillable
    | none =>
      match lookupAssoc last_close sym with
      | some lc =>
        match checkOHLCKwargs gapFillFlatCandleKwargs with
        | Except.error e => Except.error e
        | Except.ok _ =>
          gapFillLoop last_close window_start rest
            (setAssoc candles sym ⟨window_start, lc, lc, lc, lc, 0⟩) unfillable
      | none =>
        gapFillLoop last_close window_start rest candles (unfillable ++ [sym])

/-- `GapFiller.fill` (gap_fill.py lines 32–88): run the per-symbol loop,
then update `last_close` from every bar in the merged snapshot.
Result: `(merged candles, unfillable symbols, updated last_close)`. -/
def GapFiller.fill (last_close : List (String × ℚ))
    (candles : List (String × OHLCCandle)) (expected_symbols : List String)
    (window_start : ℕ) :
    Except PyError (List (String × OHLCCandle) × List String × List (String × ℚ)) :=
  match gapFillLoop last_close window_start expected_symbols candles [] with
  | Except.error e => Except.error e
  | Except.ok (merged, unfillable) =>
    Except.ok (merged, unfillable,
      merged.foldl (fun acc p => setAssoc acc p.1 p.2.close) last_close)

/-- The second-window scenario of `test_gap_fill.py`
(`test_gap_fill_happy_path_and_cold_start`): AAPL traded in window 1
(close 152.0) and is silent in window 2; MSFT has a bar. -/
def gapFillFailingLastClose : List (String × ℚ) := [("AAPL", 152)]

def gapFillFailingCandles : List (String × OHLCCandle) :=
  [("MSFT", ⟨560, 250, 255, 249, 252, 15⟩)]

/-- **C4** (code bug).  On the first finalize with an absent symbol whose
last close is recorded, `GapFiller.fill` reaches the flat-candle
constructor call, which passes `gap_filled=True` to `OHLCCandle` — a
dataclass with no `gap_filled` field — and therefore raises `TypeError`
instead of injecting the flat bar the claim (and the repository's own
test `test_gap_fill.py`) describes. -/
theorem gap_fill_raises_unexpected_kwarg :
    GapFiller.fill gapFillFailingLastClose gapFillFailingCandles
      ["AAPL", "MSFT"] 560 =
    Except.error (PyError.typeErrorUnexpectedKwarg "gap_filled") := by
  rfl

/-- A formatted sheet row (`EnrichedCandle.to_row`): the deterministic
row id is the first field; the remaining cells are opaque strings. -/
structure SheetRow where
  rid : String
  rest : List String
deriving DecidableEq, Repr

/-- The batch dict built by `WritePipeline.enqueue`
(write_pipeline.py lines 108–113). -/
structure WriteBatch where
  window_start : String
  rows : List SheetRow
  row_ids : List String
  expected_count : ℕ
deriving DecidableEq, Repr

/-- Observable outcome of `WritePipeline._process_batch`: either the
dedup-skip early return (no append call) or an append of the given rows
(`filtered = true` for the DEDUP_PARTIAL branch, `false` for
DEDUP_FRESH). -/
inductive BatchOutcome where
  | dedupSkip
  | append (rows : List SheetRow) (filtered : Bool)
deriving DecidableEq, Repr

/-- `SheetsClient.get_existing_ids_for_window` (sheets_client.py lines
111–152).  `fetched` is the result of `worksheet.get_all_values()`:
`none` models the call raising, in which case the `except` clause
returns the empty set; otherwise rows whose second cell equals the
window string contribute their first cell. -/
def get_existing_ids_for_window (fetched : Option (List (List String)))
    (window_str : String) : Finset String :=
  match fetched with
  | none => ∅
  | some all_values =>
    if all_values.length ≤ 1 then ∅
    else
      ((all_values.drop 1).filterMap (fun row =>
        if 2 ≤ row.length ∧ row.getD 1 "" = window_str then
          some (row.getD 0 "")
        else none)).toFinset

/-- `WritePipeline._process_batch` (write_pipeline.py lines 139–197) up
to the append call.  `dedupResult` is the dedup query:
`none` models `get_existing_ids_for_window` raising, in which case the
handler proceeds with the empty set. -/
def WritePipeline.process_batch (batch : WriteBatch)
    (dedupResult : Option (Finset String)) : BatchOutcome :=
  let all_ids : Finset String := batch.row_ids.toFinset
  let existing_ids : Finset String :=
    match dedupResult with
    | none => ∅
    | some s => s
  let ids_to_write := all_ids \ existing_ids
  if ids_to_write = ∅ then
    BatchOutcome.dedupSkip
  else if ids_to_write.card < batch.rows.length then
    BatchOutcome.append
      (batch.rows.filter (fun r => decide (r.rid ∈ ids_to_write))) true
  else
    BatchOutcome.append batch.rows false

/-- **C2.** For every `WriteBatch` all of whose row ids are already
present in the store for the batch's window (as they are after a
successful append), the writer computes
`to_write = batch.ids \ existing_ids`, finds it empty, and acknowledges
with the dedup-skip early return — zero rows are appended. -/
theorem process_batch_dedup_skip (batch : WriteBatch) (existing : Finset String)
    (h : batch.row_ids.toFinset ⊆ existing) :
    WritePipeline.process_batch batch (some existing) = BatchOutcome.dedupSkip := by
  unfold WritePipeline.process_batch
  rw [if_pos (Finset.sdiff_eq_empty_iff_subset.mpr h)]

/-- Concrete batch for the C2 witness. -/
def batchC2 : WriteBatch :=
  ⟨"2025-01-06T09:15:00+05:30",
    [⟨"NIFTY_20250106_0915", ["a"]⟩, ⟨"BANKNIFTY_20250106_0915", ["b"]⟩],
    ["BANKNIFTY_20250106_0915", "NIFTY_20250106_0915"], 2⟩

/-- Store contents after a successful append of `batchC2`. -/
def existingC2 : Finset String :=
  {"NIFTY_20250106_0915", "BANKNIFTY_20250106_0915"}

/-- Witness for C2 at a concrete replayed batch. -/
theorem process_batch_dedup_skip_witness :
    batchC2.row_ids.toFinset ⊆ existingC2 ∧
      WritePipeline.process_batch batchC2 (some existingC2) =
        BatchOutcome.dedupSkip :=
  ⟨by decide, process_batch_dedup_skip batchC2 existingC2 (by decide)⟩

/-- **C9.** If the writer's dedup query for a batch's window fails (the
store read raises — `get_existing_ids_for_window` returns the empty set
— or the query call itself throws, caught by `_process_batch`), the
writer proceeds with `existing_ids = ∅` and submits every row of the
batch for append, rather than holding the batch back. -/
theorem process_batch_dedup_unavailable (batch : WriteBatch) (wstr : String)
    (hne : batch.rows ≠ [])
    (hids : batch.row_ids.toFinset = (batch.rows.map SheetRow.rid).toFinset) :
    get_existing_ids_for_window none wstr = ∅ ∧
    ∃ f, WritePipeline.process_batch batch none = BatchOutcome.append batch.rows f := by
  refine ⟨rfl, ?_⟩
  unfold WritePipeline.process_batch
  simp only [Finset.sdiff_empty]
  have hmem : ∀ r ∈ batch.rows, r.rid ∈ batch.row_ids.toFinset := by
    intro r hr
    rw [hids, List.mem_toFinset]
    exact List.mem_map_of_mem SheetRow.rid hr
  have hne2 : ¬ batch.row_ids.toFinset = ∅ := by
    cases hrows : batch.rows with
    | nil => exact absurd hrows hne
    | cons r rest =>
      exact Finset.ne_empty_of_mem (hmem r (by rw [hrows]; simp))
  rw [if_neg hne2]
  by_cases hcard : batch.row_ids.toFinset.card < batch.rows.length
  · refine ⟨true, ?_⟩
    rw [if_pos hcard]
    have : batch.rows.filter (fun r => decide (r.rid ∈ batch.row_ids.toFinset)) =
        batch.rows :=
      List.filter_eq_self.mpr (fun r hr => by simpa using hmem r hr)
    rw [this]
  · exact ⟨false, by rw [if_neg hcard]⟩

/-- Concrete batch for the C9 witness. -/
def batchC9 : WriteBatch :=
  ⟨"2025-01-06T09:20:00+05:30",
    [⟨"NIFTY_20250106_0920", ["a"]⟩, ⟨"BANKNIFTY_20250106_0920", ["b"]⟩],
    ["BANKNIFTY_20250106_0920", "NIFTY_20250106_0920"], 2⟩

/-- Witness for C9 at a concrete batch with the dedup query failed. -/
theorem process_batch_dedup_unavailable_witness :
    (batchC9.rows ≠ [] ∧
      batchC9.row_ids.toFinset = (batchC9.rows.map SheetRow.rid).toFinset) ∧
    (get_existing_ids_for_window none "2025-01-06T09:20:00+05:30" = ∅ ∧
      ∃ f, WritePipeline.process_batch batchC9 none =
        BatchOutcome.append batchC9.rows f) :=
  ⟨⟨by decide, by decide⟩,
    process_batch_dedup_unavailable batchC9 "2025-01-06T09:20:00+05:30"
      (by decide) (by decide)⟩

/-- The sub-steps of `VolatilityHarvester._finalize_at_boundary`
(main.py lines 248–290), in source order (the non-empty-candles path
with a next window available). -/
inductive FinStep where
  | beginFreeze
  | waitGrace
  | finalizeWindow
  | atrBatch
  | enqueueStep
  | saveCheckpoint
  | syncAtrState
  | transitionNext
deriving DecidableEq, Repr

/-- The sequence the orchestrator executes at a boundary:
freeze → grace sleep → finalize → ATR → enqueue → checkpoint save →
ATR-table sync → next-window transition. -/
def finalizeSequence : List FinStep :=
  [FinStep.beginFreeze, FinStep.waitGrace, FinStep.finalizeWindow,
   FinStep.atrBatch, FinStep.enqueueStep, FinStep.saveCheckpoint,
   FinStep.syncAtrState, FinStep.transitionNext]

/-- Sequential execution as written in `_finalize_at_boundary`: the
method body contains NO try/except, so the first sub-step that raises
aborts the remainder (`CheckpointManager.save_checkpoint` re-raises
after logging, checkpoint_manager.py line 105).  Returns the sub-steps
that completed and whether an exception escaped. -/
def execSteps (fails : FinStep → Bool) : List FinStep → List FinStep × Bool
  | [] => ([], false)
  | s :: rest =>
    if fails s then ([], true)
    else ((s :: (execSteps fails rest).1), (execSteps fails rest).2)

/-- **C5** counterexample.  The claim says each sub-step runs under its
own catch so a checkpoint-write failure does not prevent the
next-window transition; in the code a `save_checkpoint` failure aborts
the boundary cycle and `transition_to_next_window` never runs. -/
theorem finalize_checkpoint_failure_blocks_transition :
    (execSteps (fun s => s == FinStep.saveCheckpoint) finalizeSequence).2 = true ∧
    FinStep.transitionNext ∉
      (execSteps (fun s => s == FinStep.saveCheckpoint) finalizeSequence).1 ∧
    (execSteps (fun s => s == FinStep.saveCheckpoint) finalizeSequence).1 =
      [FinStep.beginFreeze, FinStep.waitGrace, FinStep.finalizeWindow,
       FinStep.atrBatch, FinStep.enqueueStep] := by
  decide

/-- **C5** as amended: the finalization sub-steps run sequentially with
no per-sub-step catch, so an exception raised by the checkpoint save
(which re-raises after logging) escapes `_finalize_at_boundary` and the
next-window transition does not run in that boundary cycle. -/
theorem finalize_no_per_step_catch (fails : FinStep → Bool)
    (h : fails FinStep.saveCheckpoint = true) :
    (execSteps fails finalizeSequence).2 = true ∧
    FinStep.transitionNext ∉ (execSteps fails finalizeSequence).1 := by
  by_cases h1 : fails FinStep.beginFreeze = true <;>
  by_cases h2 : fails FinStep.waitGrace = true <;>
  by_cases h3 : fails FinStep.finalizeWindow = true <;>
  by_cases h4 : fails FinStep.atrBatch = true <;>
  by_cases h5 : fails FinStep.enqueueStep = true <;>
  simp [execSteps, finalizeSequence, h, h1, h2, h3, h4, h5]

/-- Witness for the amended C5 at the concrete failure pattern in which
exactly the checkpoint save raises. -/
theorem finalize_no_per_step_catch_witness :
    ((fun s => s == FinStep.saveCheckpoint) FinStep.saveCheckpoint = true) ∧
    ((execSteps (fun s => s == FinStep.saveCheckpoint) finalizeSequence).2 = true ∧
      FinStep.transitionNext ∉
        (execSteps (fun s => s == FinStep.saveCheckpoint) finalizeSequence).1) :=
  ⟨by decide, finalize_no_per_step_catch (fun s => s == FinStep.saveCheckpoint) (by decide)⟩

/-- `ReconnectManager.__init__` configuration (reconnect_manager.py
lines 26–44). -/
structure RMConfig where
  base_delay_s : ℚ
  max_delay_s : ℚ
  backoff_factor : ℚ
  max_attempts : ℕ
  jitter : Bool
  alert_threshold : ℕ
deriving DecidableEq, Repr

/-- Observable behaviour of one `attempt_reconnect` call: return value,
the attempt counter left in `self._attempts`, the alerts fired (severity,
event), the backoff sleeps performed, and how many times the
refresh/connect/subscribe callback round was entered. -/
structure RMResult where
  ret : Bool
  attempts : ℕ
  events : List (String × String)
  sleeps : List ℚ
  callback_rounds : ℕ
deriving DecidableEq, Repr

/-- `ReconnectManager.attempt_reconnect` (reconnect_manager.py lines
46–101), entered with `self._attempts = attempts`.  `succeeds k` tells
whether the try-block (refresh → connect → subscribe) succeeds on the
iteration entered with counter `k`; `jitterMul k` is the uniform random
jitter multiplier drawn on that iteration. -/
def attempt_reconnect (cfg : RMConfig) (jitterMul : ℕ → ℚ) (succeeds : ℕ → Bool)
    (attempts : ℕ) : RMResult :=
  if h : attempts < cfg.max_attempts then
    let delay0 := min (cfg.base_delay_s * cfg.backoff_factor ^ attempts) cfg.max_delay_s
    let delay := if cfg.jitter then delay0 * jitterMul attempts else delay0
    if succeeds attempts then
      { ret := true, attempts := 0,
        events := if 1 < attempts + 1 then [("INFO", "RECONNECT_RECOVERED")] else [],
        sleeps := [delay], callback_rounds := 1 }
    else
      let r := attempt_reconnect cfg jitterMul succeeds (attempts + 1)
      { ret := r.ret, attempts := r.attempts,
        events :=
          (if attempts + 1 = 1 then [("WARNING", "RECONNECT_ATTEMPT")]
           else if cfg.alert_threshold ≤ attempts + 1 then
             [("CRITICAL", "RECONNECT_FAILING")]
           else []) ++ r.events,
        sleeps := delay :: r.sleeps,
        callback_rounds := r.callback_rounds + 1 }
  else
    { ret := false, attempts := attempts,
      events := [("CRITICAL", "RECONNECT_EXHAUSTED")],
      sleeps := [], callback_rounds := 0 }
termination_by cfg.max_attempts - attempts
decreasing_by omega

/-- **C10.** The reconnect operator's attempt counter persists across
calls and is reset only on a successful connection: a call that returns
false leaves the counter at `max_attempts` or above (first conjunct),
and a subsequent call entered with such a counter — without an
intervening `reset()` — performs no backoff sleep, invokes none of the
refresh/connect/subscribe callbacks, immediately fires a CRITICAL
RECONNECT_EXHAUSTED alert again, and returns false (second conjunct). -/
theorem attempt_reconnect_exhausted_repeat :
    (∀ (cfg : RMConfig) (jm : ℕ → ℚ) (succ : ℕ → Bool) (a : ℕ),
      (attempt_reconnect cfg jm succ a).ret = false →
      cfg.max_attempts ≤ (attempt_reconnect cfg jm succ a).attempts) ∧
    (∀ (cfg : RMConfig) (jm : ℕ → ℚ) (succ : ℕ → Bool) (a : ℕ),
      cfg.max_attempts ≤ a →
      attempt_reconnect cfg jm succ a =
        { ret := false, attempts := a,
          events := [("CRITICAL", "RECONNECT_EXHAUSTED")],
          sleeps := [], callback_rounds := 0 }) := by
  have h2 : ∀ (cfg : RMConfig) (jm : ℕ → ℚ) (succ : ℕ → Bool) (a : ℕ),
      cfg.max_attempts ≤ a →
      attempt_reconnect cfg jm succ a =
        { ret := false, attempts := a,
          events := [("CRITICAL", "RECONNECT_EXHAUSTED")],
          sleeps := [], callback_rounds := 0 } := by
    intro cfg jm succ a h
    rw [attempt_reconnect, dif_neg (not_lt.mpr h)]
  refine ⟨?_, h2⟩
  intro cfg jm succ a
  generalize hn : cfg.max_attempts - a = n
  induction n using Nat.strong_induction_on generalizing a with
  | _ n ih =>
    by_cases h : a < cfg.max_attempts
    · rw [attempt_reconnect, dif_pos h]
      by_cases hs : succ a = true
      · simp [hs]
      · have hrec := ih (cfg.max_attempts - (a + 1)) (by omega) (a + 1) rfl
        intro hret
        simp only [hs, Bool.false_eq_true, if_false] at hret ⊢
        exact hrec hret
    · rw [attempt_reconnect, dif_neg h]
      intro _
      simpa using not_lt.mp h

/-- Concrete configuration for the C10 witness: 2 attempts, no jitter. -/
def rmCfgC10 : RMConfig := ⟨2, 60, 2, 2, false, 3⟩

/-- Witness for C10: a call entered with the counter already at
`max_attempts` (as left by an exhausted call) returns false with no
sleeps, no callback rounds, and only the exhausted alert. -/
theorem attempt_reconnect_exhausted_repeat_witness :
    rmCfgC10.max_attempts ≤ 2 ∧
    attempt_reconnect rmCfgC10 (fun _ => 1) (fun _ => false) 2 =
      { ret := false, attempts := 2,
        events := [("CRITICAL", "RECONNECT_EXHAUSTED")],
        sleeps := [], callback_rounds := 0 } :=
  ⟨by decide, attempt_reconnect_exhausted_repeat.2 rmCfgC10
    (fun _ => 1) (fun _ => false) 2 (by decide)⟩

/-- `config/settings.py`: `MAX_CHECKPOINT_FILES = 3`. -/
def MAX_CHECKPOINT_FILES : ℕ := 3

/-- JSON values, as written by `json.dump` and read by `json.load`
(checkpoint_manager.py). -/
inductive Json where
  | null
  | bool (b : Bool)
  | num (q : ℚ)
  | str (s : String)
  | arr (xs : List Json)
  | obj (fields : List (String × Json))

def lookupField : List (String × Json) → String → Option Json
  | [], _ => none
  | (k, v) :: rest, key => if k == key then some v else lookupField rest key

/-- `data["key"]` / `"key" in data` on a parsed JSON object. -/
def Json.getField : Json → String → Option Json
  | Json.obj fields, key => lookupField fields key
  | _, _ => none

def encOptNum : Option ℚ → Json
  | none => Json.null
  | some q => Json.num q

/-- The per-ticker dict `ATREngine.get_state` builds
(atr_engine.py lines 82–89). -/
def ATRState.toJsonFields (s : ATRState) : Json :=
  Json.obj [("prev_close", encOptNum s.prev_close),
    ("prev_atr", encOptNum s.prev_atr),
    ("tr_history", Json.arr (s.tr_history.map Json.num)),
    ("candle_count", Json.num (s.candle_count : ℚ))]

/-- `ATREngine.get_state` (atr_engine.py lines 76–90): the full
serializable state map. -/
def ATREngine.get_state (m : List (String × ATRState)) : Json :=
  Json.obj (m.map (fun p => (p.1, p.2.toJsonFields)))

/-- `data.get("prev_close")` etc.: absent key or JSON null give `None`. -/
def decOptNum : Option Json → Option ℚ
  | some (Json.num q) => some q
  | _ => none

/-- `data.get("tr_history", [])`. -/
def decNumList : Option Json → List ℚ
  | some (Json.arr xs) => xs.map (fun j => match j with | Json.num q => q | _ => 0)
  | _ => []

/-- `data.get("candle_count", 0)`. -/
def decNat : Option Json → ℕ
  | some (Json.num q) => q.num.toNat
  | _ => 0

/-- One record of `ATREngine.load_state` (atr_engine.py lines 100–106). -/
def decodeATRRecord (j : Json) : ATRState :=
  { prev_close := decOptNum (j.getField "prev_close"),
    prev_atr := decOptNum (j.getField "prev_atr"),
    tr_history := decNumList (j.getField "tr_history"),
    candle_count := decNat (j.getField "candle_count") }

/-- `ATREngine.load_state` (atr_engine.py lines 92–107) over a parsed
JSON state map. -/
def ATREngine.load_state (j : Json) : Option (List (String × ATRState)) :=
  match j with
  | Json.obj fields => some (fields.map (fun p => (p.1, decodeATRRecord p.2)))
  | _ => none

/-- Injective stand-in for `datetime.isoformat` on window identifiers. -/
def isoWindow (w : ℕ) : String := toString w

/-- The checkpoint dict written by `CheckpointManager.save_checkpoint`
(checkpoint_manager.py lines 62–67). -/
def checkpoint_json (atr_state : Json) (last_window_iso saved_at : String)
    (confirmed : Bool) : Json :=
  Json.obj [("last_window", Json.str last_window_iso),
    ("atr_state", atr_state),
    ("saved_at", Json.str saved_at),
    ("sheets_write_confirmed", Json.bool confirmed)]

/-- The checkpoint directory: `checkpoint.json` plus rotated
`checkpoint_{1..N}.json` slots (a slot is `none` when the file does not
exist). -/
structure CkptDisk where
  primary : Option Json
  backups : List (Option Json)

/-- `CheckpointManager._rotate_checkpoints` (lines 161–182): drop the
oldest, shift the others, copy the current canonical into slot 1. -/
def rotate_checkpoints (d : CkptDisk) : CkptDisk :=
  { d with backups := d.primary :: d.backups.take (MAX_CHECKPOINT_FILES - 1) }

/-- `CheckpointManager.save_checkpoint` (lines 47–105): rotate, then
atomically replace the canonical checkpoint with the new dict. -/
def save_checkpoint (d : CkptDisk) (atr_state : Json) (last_window : ℕ)
    (saved_at : String) (confirmed : Bool) : CkptDisk :=
  { rotate_checkpoints d with
    primary := some (checkpoint_json atr_state (isoWindow last_window)
      saved_at confirmed) }

/-- `CheckpointManager._try_load` (lines 136–159): reject a file whose
dict lacks `last_window` or `atr_state`. -/
def try_load (file : Option Json) : Option Json :=
  match file with
  | none => none
  | some data =>
    if (data.getField "last_window").isSome && (data.getField "atr_state").isSome then
      some data
    else none

def firstLoaded : List (Option Json) → Option Json
  | [] => none
  | f :: rest =>
    match try_load f with
    | some data => some data
    | none => firstLoaded rest

/-- `CheckpointManager.load_checkpoint` (lines 107–134): canonical
first, then the rotated backups in order. -/
def load_checkpoint (d : CkptDisk) : Option Json :=
  match try_load d.primary with
  | some data => some data
  | none => firstLoaded d.backups

/-- `load_state` inverts `get_state` exactly. -/
theorem load_state_get_state (m : List (String × ATRState)) :
    ATREngine.load_state (ATREngine.get_state m) = some m := by
  have hcomp : ∀ th : List ℚ,
      List.map ((fun j : Json => match j with | Json.num q => q | _ => 0) ∘ Json.num) th
        = th := by
    intro th
    induction th with
    | nil => rfl
    | cons a l ih => simp only [List.map_cons, Function.comp_apply, ih]
  have hrec : ∀ s : ATRState, decodeATRRecord s.toJsonFields = s := by
    intro s
    cases s with
    | mk pc pa th cc =>
      cases pc <;> cases pa <;>
        simp [decodeATRRecord, ATRState.toJsonFields, Json.getField, lookupField,
          decOptNum, decNumList, decNat, encOptNum, List.map_map,
          Rat.num_natCast, hcomp]
  unfold ATREngine.load_state ATREngine.get_state
  simp only [List.map_map]
  have hfun : ((fun p : String × Json => (p.1, decodeATRRecord p.2)) ∘
      fun p : String × ATRState => (p.1, p.2.toJsonFields)) = id := by
    funext p
    simp [Function.comp, hrec]
  rw [hfun, List.map_id]

/-- **C7.** For every ATR state map `s`, window `w` and flag `f`:
`save_checkpoint(s, w, f)` followed by `load_checkpoint()` yields a
checkpoint whose `atr_state` decodes (via `load_state`) to `s` exactly —
each instrument's `prev_close`, `prev_atr`, `candle_count` and full
`tr_history` included — whose `last_window` is the rendering of `w`, and
whose `sheets_write_confirmed` equals `f`. -/
theorem checkpoint_round_trip (d : CkptDisk) (m : List (String × ATRState))
    (w : ℕ) (saved_at : String) (f : Bool) :
    ∃ ck : Json,
      load_checkpoint (save_checkpoint d (ATREngine.get_state m) w saved_at f) =
        some ck ∧
      ck.getField "last_window" = some (Json.str (isoWindow w)) ∧
      ck.getField "sheets_write_confirmed" = some (Json.bool f) ∧
      ∃ aj, ck.getField "atr_state" = some aj ∧
        ATREngine.load_state aj = some m := by
  refine ⟨checkpoint_json (ATREngine.get_state m) (isoWindow w) saved_at f,
    ?_, rfl, rfl, ATREngine.get_state m, rfl, load_state_get_state m⟩
  rfl
